import Mathlib

/-!
Verification of the TDMS batch converter (`batches.py`).

The development shallowly embeds the three stages of the program:
discovery (`find_tdms_files`), single-file conversion with its chunked
CSV writer (`convert_tdms_file`), and batch summary accumulation
(`batch_convert_tdms_files` / `main`).  A group's dataframe is modelled
as a header line plus a list of serialized data-row lines (the dataframe
produced by `as_dataframe` carries a unique range index, so selecting an
index chunk with `loc` is the same as taking that contiguous slice of
rows).  The filesystem is an association list from output paths to file
lines; exceptions raised by the external library collaborators are
modelled by a per-group fault oracle.
-/

namespace Tdms

/-- `numpy.array_split` segment sizes: splitting a length-`l` index into
`k` parts yields `l % k` parts of size `l / k + 1` followed by
`k - l % k` parts of size `l / k`. -/
def splitSizes (l k : Nat) : List Nat :=
  List.replicate (l % k) (l / k + 1) ++ List.replicate (k - l % k) (l / k)

/-- Cut `xs` into consecutive chunks of the given sizes. -/
def chunksBySizes : List Nat → List α → List (List α)
  | [], _ => []
  | n :: rest, xs => xs.take n :: chunksBySizes rest (xs.drop n)

/-- `numpy.array_split(xs, k)` (line 118 of `batches.py` applies it to the
dataframe's row index with `k = 101`). -/
def arraySplit (xs : List α) (k : Nat) : List (List α) :=
  chunksBySizes (splitSizes xs.length k) xs

/-- A materialized group dataframe: one header line (index label and
column names) and the serialized data-row lines in index order. -/
structure Table where
  header : String
  rows : List String
deriving DecidableEq

/-- The write events of the chunked-writer loop (lines 120-137): segment 0
is written as a fresh file with the header line in front, every later
segment is appended with data rows only. -/
def chunkedWrite (t : Table) : List (List String) :=
  match arraySplit t.rows 101 with
  | [] => []
  | c :: cs => (t.header :: c) :: cs

/-- Final contents of the output file: the concatenation of all write
events of the chunked-writer loop. -/
def fileLines (t : Table) : List String :=
  (chunkedWrite t).flatten

/-- Contents of the output file after the first `seg` write events only
(what is on disk when the write of segment `seg` raises). -/
def linesBeforeSeg (t : Table) (seg : Nat) : List String :=
  ((chunkedWrite t).take seg).flatten

/-- A single unchunked CSV write of the whole table, for comparison with
the chunked writer. -/
def unchunkedWrite (t : Table) : List String :=
  t.header :: t.rows

/-- A source `.tdms` file path, split into the directory part and the
stem (file name without the `.tdms` suffix). -/
structure SrcPath where
  parent : String
  stem : String
deriving DecidableEq

/-- `source_file_path.name`: the file name of the source path. -/
def SrcPath.fileName (p : SrcPath) : String :=
  p.stem ++ ".tdms"

/-- `construct_destination_file_path` (lines 54-72): the output file lives
in the source file's directory and is named
`{source_stem}_{group_name}.{format}`; the caller passes the default
format `"csv"`. -/
def construct_destination_file_path (p : SrcPath) (group_name fmt : String) : String :=
  p.parent ++ "/" ++ p.stem ++ "_" ++ group_name ++ "." ++ fmt

/-- The destination path as used in `convert_tdms_file` (format `"csv"`). -/
def destPath (p : SrcPath) (group_name : String) : String :=
  construct_destination_file_path p group_name "csv"

/-- Fault oracle for one group: either no exception, or `as_dataframe`
raises, or the `to_csv` call for segment `seg` raises.  A `writeError`
with `seg ≥ 101` never triggers, because the loop performs exactly 101
writes. -/
inductive Fault where
  | ok : Fault
  | materializeError (msg : String) : Fault
  | writeError (seg : Nat) (msg : String) : Fault
deriving DecidableEq

/-- One group of the opened TDMS file: its name, its materialized table,
and the fault oracle for processing it. -/
structure GroupSpec where
  name : String
  table : Table
  fault : Fault
deriving DecidableEq

/-- One opened TDMS file: `enumFault` models an exception raised while
opening the file or enumerating `tdms_file.groups()`; otherwise the
groups are listed in container order. -/
structure TdmsRun where
  enumFault : Option String
  groups : List GroupSpec
deriving DecidableEq

/-- The filesystem, as a map from output paths to file lines. -/
abbrev FS := List (String × List String)

/-- Write (or overwrite) one file. -/
def fsSet (fs : FS) (path : String) (content : List String) : FS :=
  (path, content) :: fs.filter (fun e => e.1 != path)

/-- Look up one file's contents. -/
def fsGet (fs : FS) (path : String) : Option (List String) :=
  (fs.find? (fun e => e.1 == path)).map (fun e => e.2)

/-- The error message built at line 145:
`f"Error converting {source_file_path.name}: {str(e)}"`. -/
def errWrap (p : SrcPath) (msg : String) : String :=
  "Error converting " ++ p.fileName ++ ": " ++ msg

/-- The per-group loop of `convert_tdms_file` (lines 102-140) together
with the surrounding `except` clause (lines 144-147): each group is
materialized (skipped when empty), its table is written in 101 chunks,
and its destination path is appended to `created_files`; the first
exception stops the loop and returns the failure triple, leaving the
files written so far on disk. -/
def runGroups (p : SrcPath) : List GroupSpec → FS → List String →
    ((Bool × String × List String) × FS)
  | [], fs, created => ((true, "", created), fs)
  | g :: rest, fs, created =>
    match g.fault with
    | Fault.materializeError msg => ((false, errWrap p msg, created), fs)
    | Fault.writeError seg msg =>
      if g.table.rows.isEmpty then
        runGroups p rest fs created
      else if seg < 101 then
        ((false, errWrap p msg, created),
          if seg = 0 then fs
          else fsSet fs (destPath p g.name) (linesBeforeSeg g.table seg))
      else
        runGroups p rest (fsSet fs (destPath p g.name) (fileLines g.table))
          (created ++ [destPath p g.name])
    | Fault.ok =>
      if g.table.rows.isEmpty then
        runGroups p rest fs created
      else
        runGroups p rest (fsSet fs (destPath p g.name) (fileLines g.table))
          (created ++ [destPath p g.name])

/-- `convert_tdms_file` (lines 75-147): returns the success flag, the
error message, and the created-files list, and threads the filesystem. -/
def convert_tdms_file (p : SrcPath) (run : TdmsRun) (fs : FS) :
    (Bool × String × List String) × FS :=
  match run.enumFault with
  | some msg => ((false, errWrap p msg, []), fs)
  | none =>
    if run.groups.isEmpty then
      ((false, "No groups found in TDMS file", []), fs)
    else
      runGroups p run.groups fs []

/-- The groups that survive the `group_df.empty` skip (line 108). -/
def nonEmptyGroups (gs : List GroupSpec) : List GroupSpec :=
  gs.filter (fun g => !g.table.rows.isEmpty)

/-- Destination paths of the non-empty groups, in order. -/
def destsOf (p : SrcPath) (gs : List GroupSpec) : List String :=
  (nonEmptyGroups gs).map (fun g => destPath p g.name)

/-- The filesystem after a fault-free pass over `gs` (each non-empty
group's file fully written). -/
def cleanFS (p : SrcPath) (gs : List GroupSpec) (fs : FS) : FS :=
  gs.foldl
    (fun acc g =>
      if g.table.rows.isEmpty then acc
      else fsSet acc (destPath p g.name) (fileLines g.table))
    fs

/-- Filesystem effect of the failing group itself: a materialization
fault writes nothing; a write fault at segment `seg ≥ 1` leaves the
partially-written file holding segments `0 .. seg-1`; a write fault at
segment 0 leaves no file. -/
def badFS (p : SrcPath) (bad : GroupSpec) (fs : FS) : FS :=
  match bad.fault with
  | Fault.writeError s _ =>
    if s = 0 then fs else fsSet fs (destPath p bad.name) (linesBeforeSeg bad.table s)
  | _ => fs

/-- The summary counters printed by `batch_convert_tdms_files`
(lines 173-200): total files, successful conversions, failed
conversions, and the total-CSV-files-created counter. -/
structure BatchSummary where
  total : Nat
  successful : Nat
  failed : Nat
  csvCreated : Nat
deriving DecidableEq

/-- One iteration of the accumulation loop (lines 183-189): on success,
`successful_conversions += 1` and
`total_csv_files_created += len(created_files)`; on failure only
`failed_conversions += 1`. -/
def stepCounters (acc : Nat × Nat × Nat) (r : Bool × String × List String) :
    Nat × Nat × Nat :=
  if r.1 then (acc.1 + 1, acc.2.1, acc.2.2 + r.2.2.length)
  else (acc.1, acc.2.1 + 1, acc.2.2)

/-- The batch summary computed from the per-file conversion results
(`total_files` is `len(tdms_files)`, one result per file). -/
def batchSummary (results : List (Bool × String × List String)) : BatchSummary :=
  let c := results.foldl stepCounters (0, 0, 0)
  { total := results.length, successful := c.1, failed := c.2.1, csvCreated := c.2.2 }

mutual

/-- A filesystem tree node: a plain file or a directory with children. -/
inductive FsTree where
  | file (n : String) : FsTree
  | dir (n : String) (children : FsForest) : FsTree

/-- The children of a directory, in enumeration order. -/
inductive FsForest where
  | nil : FsForest
  | cons (t : FsTree) (ts : FsForest) : FsForest

end

/-- A path below the scanned root: the directory components, then the
entry's own name. -/
abbrev EntryPath := List String × String

/-- `fnmatch` of an entry name against the glob `*.tdms`: an exact
case-sensitive suffix match, modelled on the character list. -/
def matchesTdms (n : String) : Bool :=
  ".tdms".data.isSuffixOf n.data

mutual

/-- The entries matched by `rglob("*.tdms")` inside one node: `rglob`
yields every descendant entry — directories included — whose name
matches the pattern. -/
def subtreeMatches : FsTree → List EntryPath
  | FsTree.file n => if matchesTdms n then [([], n)] else []
  | FsTree.dir n ch =>
    (if matchesTdms n then [([], n)] else [])
      ++ (subtreeForest ch).map (fun q => (n :: q.1, q.2))

/-- `subtreeMatches` over the children of a directory. -/
def subtreeForest : FsForest → List EntryPath
  | FsForest.nil => []
  | FsForest.cons t ts => subtreeMatches t ++ subtreeForest ts

end

mutual

/-- Every entry inside one node, paired with whether it is a plain file. -/
def entriesOf : FsTree → List (EntryPath × Bool)
  | FsTree.file n => [(([], n), true)]
  | FsTree.dir n ch =>
    (([], n), false) :: (entriesForest ch).map (fun q => ((n :: q.1.1, q.1.2), q.2))

/-- `entriesOf` over the children of a directory. -/
def entriesForest : FsForest → List (EntryPath × Bool)
  | FsForest.nil => []
  | FsForest.cons t ts => entriesOf t ++ entriesForest ts

end

/-- The paths of the plain-file entries below the given children. -/
def filePathsForest (ts : FsForest) : List EntryPath :=
  ((entriesForest ts).filter (fun e => e.2)).map (fun e => e.1)

/-- The two precondition errors of `find_tdms_files` (lines 42-46). -/
inductive DiscError where
  | rootNotFound : DiscError
  | rootNotADirectory : DiscError
deriving DecidableEq

/-- `find_tdms_files` (lines 30-51): `FileNotFoundError` when the root
path does not exist, `NotADirectoryError` when it exists but is not a
directory, otherwise the `rglob("*.tdms")` matches below the root. -/
def find_tdms_files : Option FsTree → Except DiscError (List EntryPath)
  | none => Except.error DiscError.rootNotFound
  | some (FsTree.file _) => Except.error DiscError.rootNotADirectory
  | some (FsTree.dir _ ch) => Except.ok (subtreeForest ch)

/-- Environment seen by `main`: what the argument path resolves to
(`none` when it does not exist), and whether some exception is raised
inside the `try` block of `batch_convert_tdms_files` (the per-file
conversion never raises — its exceptions are caught inside
`convert_tdms_file`). -/
structure Env where
  root : Option FsTree
  fatal : Option String

/-- Exit behaviour of `batch_convert_tdms_files` (lines 150-211) when
called on an existing directory: a fatal exception inside the `try`
block calls `sys.exit(1)`; otherwise the function returns normally —
also when discovery finds zero files — which lets the process end with
status 0. -/
def batchExit (root : FsTree) (fatal : Option String) : Nat :=
  if fatal.isSome then 1
  else
    match find_tdms_files (some root) with
    | Except.error _ => 1
    | Except.ok _ => 0

/-- Exit status of `main` (lines 214-239): status 1 when `sys.argv` does
not have exactly two entries, when the path does not exist, or when it
is not a directory; otherwise the batch loop decides the status. -/
def mainExit (argv : List String) (env : Env) : Nat :=
  if argv.length ≠ 2 then 1
  else
    match env.root with
    | none => 1
    | some (FsTree.file _) => 1
    | some (FsTree.dir n ch) => batchExit (FsTree.dir n ch) env.fatal

/-- The message carried by a fault (`str(e)` of the raised exception). -/
def faultMsg : Fault → String
  | Fault.ok => ""
  | Fault.materializeError m => m
  | Fault.writeError _ m => m

/-- The group raises an exception while being processed: either
`as_dataframe` raises, or one of the 101 segment writes raises (a write
fault can only trigger on a non-empty table, because empty tables are
skipped before the write loop). -/
def raisesDuring (g : GroupSpec) : Prop :=
  (∃ m, g.fault = Fault.materializeError m)
  ∨ (∃ s m, g.fault = Fault.writeError s m ∧ s < 101 ∧ g.table.rows ≠ [])

/-- Sample source path used by the concrete evaluations. -/
def pX : SrcPath := ⟨"d", "s"⟩

/-- Sample two-row table. -/
def tA : Table := ⟨"hA", ["a1", "a2"]⟩

/-- Sample two-row table. -/
def tB : Table := ⟨"hB", ["b1", "b2"]⟩

/-- Sample one-row table. -/
def tC : Table := ⟨"hC", ["c1"]⟩

/-- Sample zero-row table. -/
def tE : Table := ⟨"hE", []⟩

/-- Sample directory whose children are a directory named `d.tdms` and a
plain file named `a.tdms`. -/
def cexForest : FsForest :=
  FsForest.cons (FsTree.dir "d.tdms" FsForest.nil)
    (FsForest.cons (FsTree.file "a.tdms") FsForest.nil)

/-- Sample fault-free file with one non-empty and one empty group. -/
def runClean : TdmsRun :=
  ⟨none, [⟨"G1", tA, Fault.ok⟩, ⟨"GE", tE, Fault.ok⟩]⟩

/-- Sample file with no groups. -/
def runEmpty : TdmsRun :=
  ⟨none, []⟩

/-- Sample file of three groups whose second group raises while writing
its segment 1 (after segment 0 was already written). -/
def runC4 : TdmsRun :=
  ⟨none, [⟨"G1", tA, Fault.ok⟩, ⟨"G2", tB, Fault.writeError 1 "disk full"⟩,
    ⟨"G3", tC, Fault.ok⟩]⟩

/-- Sample prefix of fault-free groups: just one non-empty group. -/
def preW : List GroupSpec := [⟨"G1", tA, Fault.ok⟩]

/-- Sample group whose `as_dataframe` call raises. -/
def badW : GroupSpec := ⟨"G2", tB, Fault.materializeError "corrupt segment"⟩

/-- Sample suffix of groups never reached after a failure. -/
def postW : List GroupSpec := [⟨"G3", tC, Fault.ok⟩]

theorem splitSizes_length (l k : Nat) (hk : 0 < k) :
    (splitSizes l k).length = k := by
  have h : l % k < k := Nat.mod_lt _ hk
  simp [splitSizes]
  omega

theorem splitSizes_sum (l k : Nat) (hk : 0 < k) :
    (splitSizes l k).sum = l := by
  have h : l % k < k := Nat.mod_lt _ hk
  have hdm : l % k + k * (l / k) = l := Nat.mod_add_div l k
  have hmul : (l % k) * (l / k) ≤ k * (l / k) :=
    Nat.mul_le_mul_right _ (Nat.le_of_lt h)
  simp [splitSizes, List.sum_replicate, smul_eq_mul]
  calc (l % k) * (l / k + 1) + (k - l % k) * (l / k)
      = (l % k) * (l / k) + (l % k) + (k * (l / k) - (l % k) * (l / k)) := by
        rw [Nat.mul_succ, Nat.sub_mul]
    _ = l := by omega

theorem chunksBySizes_length (sizes : List Nat) (xs : List α) :
    (chunksBySizes sizes xs).length = sizes.length := by
  induction sizes generalizing xs with
  | nil => simp [chunksBySizes]
  | cons n rest ih => simp [chunksBySizes, ih]

theorem chunksBySizes_join (sizes : List Nat) (xs : List α) :
    (chunksBySizes sizes xs).flatten = xs.take sizes.sum := by
  induction sizes generalizing xs with
  | nil => simp [chunksBySizes]
  | cons n rest ih =>
    simp only [chunksBySizes, List.flatten_cons, List.sum_cons, ih, List.take_add]

theorem arraySplit_length (xs : List α) (k : Nat) (hk : 0 < k) :
    (arraySplit xs k).length = k := by
  rw [arraySplit, chunksBySizes_length, splitSizes_length _ _ hk]

theorem arraySplit_join (xs : List α) (k : Nat) (hk : 0 < k) :
    (arraySplit xs k).flatten = xs := by
  rw [arraySplit, chunksBySizes_join, splitSizes_sum _ _ hk, List.take_length]

theorem chunkedWrite_shape (t : Table) :
    ∃ c cs, arraySplit t.rows 101 = c :: cs ∧ chunkedWrite t = (t.header :: c) :: cs := by
  cases h : arraySplit t.rows 101 with
  | nil =>
    have hlen := arraySplit_length t.rows 101 (by norm_num)
    rw [h] at hlen
    simp at hlen
  | cons c cs =>
    exact ⟨c, cs, rfl, by rw [chunkedWrite, h]⟩

theorem fileLines_eq (t : Table) : fileLines t = unchunkedWrite t := by
  obtain ⟨c, cs, hsplit, hwrite⟩ := chunkedWrite_shape t
  have hjoin := arraySplit_join t.rows 101 (by norm_num)
  rw [hsplit] at hjoin
  rw [fileLines, hwrite, unchunkedWrite, List.flatten_cons, List.cons_append]
  rw [List.flatten_cons] at hjoin
  rw [hjoin]

theorem chunksBySizes_count_empty (sizes : List Nat) (xs : List α)
    (h : sizes.sum ≤ xs.length) :
    ((chunksBySizes sizes xs).filter (fun c => c.isEmpty)).length
      = (sizes.filter (fun n => n == 0)).length := by
  induction sizes generalizing xs with
  | nil => simp [chunksBySizes]
  | cons n rest ih =>
    simp only [List.sum_cons] at h
    have hrest : rest.sum ≤ (xs.drop n).length := by
      simp only [List.length_drop]
      omega
    cases n with
    | zero =>
      simp [chunksBySizes, List.filter_cons]
      exact ih xs (by simpa using hrest)
    | succ m =>
      cases xs with
      | nil =>
        simp only [List.length_nil] at h
        omega
      | cons y ys =>
        simpa [chunksBySizes, List.filter_cons] using ih _ hrest

theorem splitSizes_small (l : Nat) (h : l < 101) :
    splitSizes l 101 = List.replicate l 1 ++ List.replicate (101 - l) 0 := by
  simp [splitSizes, Nat.mod_eq_of_lt h, Nat.div_eq_of_lt h]

theorem filter_zero_replicate_one (k : Nat) :
    (List.replicate k (1 : Nat)).filter (fun n => n == 0) = [] := by
  induction k with
  | zero => rfl
  | succ m ih => simp [List.replicate_succ, List.filter_cons, ih]

theorem filter_zero_replicate_zero (k : Nat) :
    (List.replicate k (0 : Nat)).filter (fun n => n == 0) = List.replicate k 0 := by
  induction k with
  | zero => rfl
  | succ m ih => simp [List.replicate_succ, List.filter_cons, ih]

theorem arraySplit_count_empty (xs : List α) (h : xs.length < 101) :
    ((arraySplit xs 101).filter (fun c => c.isEmpty)).length = 101 - xs.length := by
  rw [arraySplit, chunksBySizes_count_empty]
  · rw [splitSizes_small _ h, List.filter_append, filter_zero_replicate_one,
      filter_zero_replicate_zero]
    simp
  · rw [splitSizes_sum _ _ (by norm_num)]

theorem fsGet_set_eq (fs : FS) (k : String) (c : List String) :
    fsGet (fsSet fs k c) k = some c := by
  simp [fsGet, fsSet, List.find?_cons]

theorem find_filter_ne (fs : FS) (k k2 : String) (h : k ≠ k2) :
    (fs.filter (fun e => e.1 != k2)).find? (fun e => e.1 == k)
      = fs.find? (fun e => e.1 == k) := by
  induction fs with
  | nil => rfl
  | cons e es ih =>
    by_cases he : e.1 = k2
    · have h2 : (k2 == k) = false := by
        simp only [beq_eq_false_iff_ne, ne_eq]
        exact fun hh => h hh.symm
      simp [List.filter_cons, List.find?_cons, he, h2, ih]
    · by_cases hk : e.1 = k
      · simp [List.filter_cons, List.find?_cons, he, hk, h, ih]
      · simp [List.filter_cons, List.find?_cons, he, hk, ih]

theorem fsGet_set_ne (fs : FS) (k k2 : String) (c : List String) (h : k ≠ k2) :
    fsGet (fsSet fs k2 c) k = fsGet fs k := by
  have h2 : (k2 == k) = false := by
    simp only [beq_eq_false_iff_ne, ne_eq]
    exact fun hh => h hh.symm
  simp [fsGet, fsSet, List.find?_cons, h2, find_filter_ne fs k k2 h]

theorem find_key_nodup (l : FS) (k : String) (v : List String)
    (hnd : (l.map Prod.fst).Nodup) (hmem : (k, v) ∈ l) :
    l.find? (fun e => e.1 == k) = some (k, v) := by
  induction l with
  | nil => cases hmem
  | cons e es ih =>
    rw [List.map_cons, List.nodup_cons] at hnd
    rcases List.mem_cons.mp hmem with he | he
    · subst he
      simp [List.find?_cons]
    · have hk : k ∈ es.map Prod.fst := by
        exact List.mem_map.mpr ⟨(k, v), he, rfl⟩
      have hne : (e.1 == k) = false := by
        simp only [beq_eq_false_iff_ne, ne_eq]
        intro hh
        exact hnd.1 (hh ▸ hk)
      simp [List.find?_cons, hne, ih hnd.2 he]

theorem fsGet_reverse_nodup (l : FS) (fs0 : FS) (k : String) (v : List String)
    (hnd : (l.map Prod.fst).Nodup) (hmem : (k, v) ∈ l) :
    fsGet (l.reverse ++ fs0) k = some v := by
  have hnd2 : (l.reverse.map Prod.fst).Nodup := by
    rw [List.map_reverse]
    exact List.nodup_reverse.mpr hnd
  have hmem2 : (k, v) ∈ l.reverse := List.mem_reverse.mpr hmem
  have hfind := find_key_nodup l.reverse k v hnd2 hmem2
  rw [fsGet, List.find?_append, hfind]
  rfl

theorem destsOf_nil (p : SrcPath) : destsOf p [] = [] := rfl

theorem destsOf_cons (p : SrcPath) (g : GroupSpec) (rest : List GroupSpec) :
    destsOf p (g :: rest) =
      if g.table.rows.isEmpty then destsOf p rest
      else destPath p g.name :: destsOf p rest := by
  by_cases h : g.table.rows.isEmpty <;>
    simp [destsOf, nonEmptyGroups, List.filter_cons, h]

theorem cleanFS_nil (p : SrcPath) (fs : FS) : cleanFS p [] fs = fs := rfl

theorem cleanFS_cons (p : SrcPath) (g : GroupSpec) (rest : List GroupSpec) (fs : FS) :
    cleanFS p (g :: rest) fs =
      cleanFS p rest
        (if g.table.rows.isEmpty then fs
         else fsSet fs (destPath p g.name) (fileLines g.table)) := rfl

theorem runGroups_clean (p : SrcPath) (gs : List GroupSpec) :
    ∀ (fs : FS) (created : List String), (∀ g ∈ gs, g.fault = Fault.ok) →
      runGroups p gs fs created
        = ((true, "", created ++ destsOf p gs), cleanFS p gs fs) := by
  induction gs with
  | nil =>
    intro fs created _
    simp [runGroups, destsOf, nonEmptyGroups, cleanFS]
  | cons g rest ih =>
    intro fs created h
    have hg : g.fault = Fault.ok := h g (List.mem_cons_self _ _)
    have hrest : ∀ x ∈ rest, x.fault = Fault.ok :=
      fun x hx => h x (List.mem_cons_of_mem _ hx)
    by_cases he : g.table.rows.isEmpty
    · simp [runGroups, hg, he, ih _ _ hrest, destsOf_cons, cleanFS_cons]
    · simp [runGroups, hg, he, ih _ _ hrest, destsOf_cons, cleanFS_cons]

theorem runGroups_append_clean (p : SrcPath) (pre rest : List GroupSpec) :
    ∀ (fs : FS) (created : List String), (∀ g ∈ pre, g.fault = Fault.ok) →
      runGroups p (pre ++ rest) fs created
        = runGroups p rest (cleanFS p pre fs) (created ++ destsOf p pre) := by
  induction pre with
  | nil =>
    intro fs created _
    simp [cleanFS, destsOf, nonEmptyGroups]
  | cons g pr ih =>
    intro fs created h
    have hg : g.fault = Fault.ok := h g (List.mem_cons_self _ _)
    have hpr : ∀ x ∈ pr, x.fault = Fault.ok :=
      fun x hx => h x (List.mem_cons_of_mem _ hx)
    by_cases he : g.table.rows.isEmpty
    · simp [runGroups, hg, he, ih _ _ hpr, destsOf_cons, cleanFS_cons]
    · simp [runGroups, hg, he, ih _ _ hpr, destsOf_cons, cleanFS_cons]

theorem cleanFS_from_disjoint (p : SrcPath) (gs : List GroupSpec) :
    ∀ (fs : FS),
      (destsOf p gs).Nodup →
      (∀ e ∈ fs, e.1 ∉ destsOf p gs) →
      cleanFS p gs fs
        = ((nonEmptyGroups gs).map
            (fun g => (destPath p g.name, fileLines g.table))).reverse ++ fs := by
  induction gs with
  | nil =>
    intro fs _ _
    simp [cleanFS, nonEmptyGroups]
  | cons g rest ih =>
    intro fs hnd hfs
    rw [destsOf_cons] at hnd hfs
    by_cases he : g.table.rows.isEmpty
    · rw [cleanFS_cons, if_pos he]
      rw [ih fs (by simpa [he] using hnd) (by intro e hefs; simpa [he] using hfs e hefs)]
      simp [nonEmptyGroups, List.filter_cons, he]
    · rw [cleanFS_cons, if_neg he]
      have hd : destPath p g.name ∉ destsOf p rest := by
        have := List.nodup_cons.mp (by simpa [he] using hnd)
        exact this.1
      have hndr : (destsOf p rest).Nodup :=
        (List.nodup_cons.mp (by simpa [he] using hnd)).2
      have hset : fsSet fs (destPath p g.name) (fileLines g.table)
          = (destPath p g.name, fileLines g.table) :: fs := by
        rw [fsSet]
        congr 1
        rw [List.filter_eq_self]
        intro e hefs
        have : e.1 ∉ destPath p g.name :: destsOf p rest := by
          simpa [he] using hfs e hefs
        simp only [bne_iff_ne, ne_eq]
        exact fun hh => this (by simp [hh])
      rw [hset]
      rw [ih ((destPath p g.name, fileLines g.table) :: fs) hndr ?hdisj]
      case hdisj =>
        intro e hefs
        rcases List.mem_cons.mp hefs with hh | hh
        · subst hh
          exact hd
        · have : e.1 ∉ destPath p g.name :: destsOf p rest := by
            simpa [he] using hfs e hh
          exact fun hm => this (List.mem_cons_of_mem _ hm)
      simp [nonEmptyGroups, List.filter_cons, he]

theorem isEmpty_false_of_ne_nil {l : List α} (h : l ≠ []) : l.isEmpty = false := by
  cases l with
  | nil => exact absurd rfl h
  | cons a l => rfl

theorem filter_match_shift (n : String) (l : List EntryPath) :
    (l.map (fun q => (n :: q.1, q.2))).filter (fun q => matchesTdms q.2)
      = (l.filter (fun q => matchesTdms q.2)).map (fun q => (n :: q.1, q.2)) := by
  induction l with
  | nil => rfl
  | cons a l ih =>
    by_cases hm : matchesTdms a.2 <;> simp [List.filter_cons, hm, ih]

mutual

theorem subtreeMatches_filter : ∀ (t : FsTree),
    subtreeMatches t
      = ((entriesOf t).map (fun e => e.1)).filter (fun q => matchesTdms q.2)
  | FsTree.file n => by
    by_cases hm : matchesTdms n <;>
      simp [subtreeMatches, entriesOf, List.filter_cons, hm]
  | FsTree.dir n ch => by
    have ih := subtreeForest_filter ch
    have hcomp : (fun (e : EntryPath × Bool) => e.1)
          ∘ (fun (q : EntryPath × Bool) => ((n :: q.1.1, q.1.2), q.2))
        = (fun (q : EntryPath) => (n :: q.1, q.2))
          ∘ (fun (e : EntryPath × Bool) => e.1) := rfl
    simp only [subtreeMatches, entriesOf, List.map_cons, List.map_map, List.filter_cons]
    rw [hcomp, ← List.map_map, filter_match_shift, ← ih]
    by_cases hm : matchesTdms n <;> simp [hm]

theorem subtreeForest_filter : ∀ (ts : FsForest),
    subtreeForest ts
      = ((entriesForest ts).map (fun e => e.1)).filter (fun q => matchesTdms q.2)
  | FsForest.nil => rfl
  | FsForest.cons t ts => by
    have ih1 := subtreeMatches_filter t
    have ih2 := subtreeForest_filter ts
    simp [subtreeForest, entriesForest, List.map_append, List.filter_append, ih1, ih2]

end

/-- Claim C5 (amended): discovery on an existing directory returns
exactly the paths of the entries under it — plain files AND directories,
because `rglob` matches entries of any kind — whose name ends with the
case-sensitive suffix `.tdms`, at any nesting depth, and no entry whose
name does not end with that suffix. -/
theorem claim_C5 (n : String) (ch : FsForest) :
    find_tdms_files (some (FsTree.dir n ch))
      = Except.ok
          (((entriesForest ch).map (fun e => e.1)).filter (fun q => matchesTdms q.2))
    ∧ ∀ q : EntryPath, q ∈ subtreeForest ch ↔
        ((∃ b, (q, b) ∈ entriesForest ch) ∧ matchesTdms q.2 = true) := by
  constructor
  · exact congrArg Except.ok (subtreeForest_filter ch)
  · intro q
    rw [subtreeForest_filter, List.mem_filter, List.mem_map]
    constructor
    · rintro ⟨⟨e, he, rfl⟩, hm⟩
      exact ⟨⟨e.2, he⟩, hm⟩
    · rintro ⟨⟨b, hb⟩, hm⟩
      exact ⟨⟨(q, b), hb, rfl⟩, hm⟩

/-- Claim C5, counterexample to the claim as stated: on a root whose
children are a DIRECTORY named `d.tdms` and a file `a.tdms`, discovery
returns the directory's path as well, although it is not a file path. -/
theorem claim_C5_cex :
    find_tdms_files (some (FsTree.dir "root" cexForest))
      = Except.ok [(([] : List String), "d.tdms"), ([], "a.tdms")]
    ∧ (([] : List String), "d.tdms") ∉ filePathsForest cexForest := by
  exact ⟨rfl, by decide⟩

/-- Claim C6: discovery on a non-existent root always fails with the
`FileNotFoundError` kind, on an existing non-directory root always fails
with the `NotADirectoryError` kind, and succeeds on every directory —
so it raises in exactly those two precondition cases. -/
theorem claim_C6 :
    find_tdms_files none = Except.error DiscError.rootNotFound
    ∧ (∀ n, find_tdms_files (some (FsTree.file n))
        = Except.error DiscError.rootNotADirectory)
    ∧ (∀ n ch, find_tdms_files (some (FsTree.dir n ch))
        = Except.ok (subtreeForest ch)) :=
  ⟨rfl, fun _ => rfl, fun _ _ => rfl⟩

/-- Claim C1: for every non-empty group table the chunked writer splits
the row index into exactly 101 contiguous segments that partition the
rows in original order (their concatenation is the original row list);
segment 0 is written as a fresh file with the header line followed by
its data rows, every later segment is appended data-only, and the
resulting file is the header line followed by all rows in order — one
header line at the top. -/
theorem claim_C1 (t : Table) (h : t.rows ≠ []) :
    (arraySplit t.rows 101).length = 101
    ∧ (arraySplit t.rows 101).flatten = t.rows
    ∧ (∃ c cs, arraySplit t.rows 101 = c :: cs ∧ chunkedWrite t = (t.header :: c) :: cs)
    ∧ fileLines t = t.header :: t.rows :=
  ⟨arraySplit_length _ _ (by norm_num), arraySplit_join _ _ (by norm_num),
    chunkedWrite_shape t, fileLines_eq t⟩

/-- Claim C1, witness at a concrete two-row table. -/
theorem claim_C1_witness :
    tA.rows ≠ []
    ∧ ((arraySplit tA.rows 101).length = 101
      ∧ (arraySplit tA.rows 101).flatten = tA.rows
      ∧ (∃ c cs, arraySplit tA.rows 101 = c :: cs ∧ chunkedWrite tA = (tA.header :: c) :: cs)
      ∧ fileLines tA = tA.header :: tA.rows) :=
  ⟨by decide, claim_C1 tA (by decide)⟩

/-- Claim C10: for a non-empty table with fewer than 101 rows the
101-way split produces 101 segments of which `101 - N` are empty, the
written file is identical to a single unchunked write (one header line
and exactly the `N` data rows), and the conversion of such a group still
succeeds. -/
theorem claim_C10 (t : Table) (h0 : t.rows ≠ []) (hlt : t.rows.length < 101) :
    (arraySplit t.rows 101).length = 101
    ∧ ((arraySplit t.rows 101).filter (fun c => c.isEmpty)).length = 101 - t.rows.length
    ∧ fileLines t = unchunkedWrite t
    ∧ ∀ (p : SrcPath) (nm : String),
        (convert_tdms_file p ⟨none, [⟨nm, t, Fault.ok⟩]⟩ []).1
          = (true, "", [destPath p nm]) := by
  refine ⟨arraySplit_length _ _ (by norm_num), arraySplit_count_empty _ hlt,
    fileLines_eq t, ?_⟩
  intro p nm
  have hclean := runGroups_clean p [⟨nm, t, Fault.ok⟩] [] []
    (by intro g hg; rw [List.mem_singleton] at hg; rw [hg])
  simp [convert_tdms_file, hclean, destsOf_cons, destsOf_nil,
    isEmpty_false_of_ne_nil h0]

/-- Claim C10, witness at a concrete one-row table. -/
theorem claim_C10_witness :
    (tC.rows ≠ [] ∧ tC.rows.length < 101)
    ∧ ((arraySplit tC.rows 101).length = 101
      ∧ ((arraySplit tC.rows 101).filter (fun c => c.isEmpty)).length
          = 101 - tC.rows.length
      ∧ fileLines tC = unchunkedWrite tC
      ∧ ∀ (p : SrcPath) (nm : String),
          (convert_tdms_file p ⟨none, [⟨nm, tC, Fault.ok⟩]⟩ []).1
            = (true, "", [destPath p nm])) :=
  ⟨⟨by decide, by decide⟩, claim_C10 tC (by decide) (by decide)⟩

/-- Claim C7 (amended): on a file whose group enumeration yields zero
groups, conversion returns failure with the message
"No groups found in TDMS file" — not the shorter "no groups found" the
claim quotes — and an empty created-files list, leaving the filesystem
untouched. -/
theorem claim_C7 (p : SrcPath) (run : TdmsRun) (fs : FS)
    (henum : run.enumFault = none) (hgs : run.groups = []) :
    convert_tdms_file p run fs = ((false, "No groups found in TDMS file", []), fs) := by
  cases run with
  | mk ef gs =>
    have h1 : ef = none := henum
    have h2 : gs = [] := hgs
    subst h1
    subst h2
    rfl

/-- Claim C7, counterexample to the message the claim states: the code
returns the message "No groups found in TDMS file", which differs from
"no groups found". -/
theorem claim_C7_cex :
    convert_tdms_file pX runEmpty [] = ((false, "No groups found in TDMS file", []), [])
    ∧ "No groups found in TDMS file" ≠ "no groups found" :=
  ⟨rfl, by decide⟩

/-- Claim C7, witness at the concrete zero-group file. -/
theorem claim_C7_witness :
    (runEmpty.enumFault = none ∧ runEmpty.groups = [])
    ∧ convert_tdms_file pX runEmpty []
        = ((false, "No groups found in TDMS file", []), []) :=
  ⟨⟨rfl, rfl⟩, claim_C7 pX runEmpty [] rfl rfl⟩

theorem filter_split_length (rs : List (Bool × String × List String)) :
    (rs.filter (fun r => r.1)).length + (rs.filter (fun r => !r.1)).length
      = rs.length := by
  induction rs with
  | nil => rfl
  | cons r rest ih =>
    cases hr : r.1 <;> simp [List.filter_cons, hr] <;> omega

theorem foldCounters (rs : List (Bool × String × List String)) :
    ∀ (a b c : Nat),
      rs.foldl stepCounters (a, b, c)
        = (a + (rs.filter (fun r => r.1)).length,
           b + (rs.filter (fun r => !r.1)).length,
           c + ((rs.filter (fun r => r.1)).map (fun r => r.2.2.length)).sum) := by
  induction rs with
  | nil =>
    intro a b c
    simp
  | cons r rest ih =>
    intro a b c
    cases hr : r.1
    case false =>
      have hstep : stepCounters (a, b, c) r = (a, b + 1, c) := by
        simp [stepCounters, hr]
      rw [List.foldl_cons, hstep, ih]
      simp [List.filter_cons, hr, Prod.ext_iff]
      omega
    case true =>
      have hstep : stepCounters (a, b, c) r = (a + 1, b, c + r.2.2.length) := by
        simp [stepCounters, hr]
      rw [List.foldl_cons, hstep, ih]
      simp [List.filter_cons, hr, Prod.ext_iff]
      omega

/-- Claim C8 (amended): the batch summary is a fold of the per-file
results: total equals the number of files, succeeded plus failed equals
total, but the total-CSV-files-created counter sums the created-files
list lengths over the SUCCESSFUL conversions only — the created files
of failed conversions are not counted. -/
theorem claim_C8 (results : List (Bool × String × List String)) :
    (batchSummary results).total = results.length
    ∧ (batchSummary results).successful + (batchSummary results).failed
        = results.length
    ∧ (batchSummary results).csvCreated
        = ((results.filter (fun r => r.1)).map (fun r => r.2.2.length)).sum := by
  have hf := foldCounters results 0 0 0
  have h1 : (batchSummary results).successful
      = (results.filter (fun r => r.1)).length := by
    show (results.foldl stepCounters (0, 0, 0)).1 = _
    rw [hf]
    exact Nat.zero_add _
  have h2 : (batchSummary results).failed
      = (results.filter (fun r => !r.1)).length := by
    show (results.foldl stepCounters (0, 0, 0)).2.1 = _
    rw [hf]
    exact Nat.zero_add _
  have h3 : (batchSummary results).csvCreated
      = ((results.filter (fun r => r.1)).map (fun r => r.2.2.length)).sum := by
    show (results.foldl stepCounters (0, 0, 0)).2.2 = _
    rw [hf]
    exact Nat.zero_add _
  refine ⟨rfl, ?_, h3⟩
  rw [h1, h2, filter_split_length]

/-- Claim C8, counterexample to the claim as stated: a single failed
conversion that created one file yields a summary whose created-files
counter is 0, not the sum 1 over all results. -/
theorem claim_C8_cex :
    (batchSummary [(false, "e", ["f1"])]).csvCreated = 0
    ∧ (([(false, "e", ["f1"])] : List (Bool × String × List String)).map
        (fun r => r.2.2.length)).sum = 1
    ∧ (0 : Nat) ≠ 1 :=
  ⟨rfl, rfl, by decide⟩

/-- Claim C9: the entry point exits with status 1 on a wrong argument
count, a non-existent path, a non-directory path, or a fatal exception
escaping the batch loop; it exits with status 0 whenever the batch loop
completes, independently of per-file results, including the case where
discovery finds zero files. -/
theorem claim_C9 :
    (∀ (argv : List String) (env : Env), argv.length ≠ 2 → mainExit argv env = 1)
    ∧ (∀ (argv : List String) (fatal : Option String), argv.length = 2 →
        mainExit argv ⟨none, fatal⟩ = 1)
    ∧ (∀ (argv : List String) (n : String) (fatal : Option String), argv.length = 2 →
        mainExit argv ⟨some (FsTree.file n), fatal⟩ = 1)
    ∧ (∀ (argv : List String) (n : String) (ch : FsForest) (m : String),
        argv.length = 2 → mainExit argv ⟨some (FsTree.dir n ch), some m⟩ = 1)
    ∧ (∀ (argv : List String) (n : String) (ch : FsForest), argv.length = 2 →
        mainExit argv ⟨some (FsTree.dir n ch), none⟩ = 0)
    ∧ (∀ (argv : List String) (n : String), argv.length = 2 →
        find_tdms_files (some (FsTree.dir n FsForest.nil)) = Except.ok []
        ∧ mainExit argv ⟨some (FsTree.dir n FsForest.nil), none⟩ = 0) := by
  refine ⟨?_, ?_, ?_, ?_, ?_, ?_⟩
  · intro argv env h
    simp [mainExit, h]
  · intro argv fatal h
    simp [mainExit, h]
  · intro argv n fatal h
    simp [mainExit, h]
  · intro argv n ch m h
    simp [mainExit, h, batchExit]
  · intro argv n ch h
    simp [mainExit, h, batchExit, find_tdms_files]
  · intro argv n h
    exact ⟨rfl, by simp [mainExit, h, batchExit, find_tdms_files]⟩

/-- Claim C9, witness at concrete argument vectors and environments. -/
theorem claim_C9_witness :
    ((["batches.py"] : List String).length ≠ 2
      ∧ mainExit ["batches.py"] ⟨some (FsTree.dir "r" FsForest.nil), none⟩ = 1)
    ∧ ((["batches.py", "root"] : List String).length = 2
      ∧ mainExit ["batches.py", "root"] ⟨none, none⟩ = 1
      ∧ mainExit ["batches.py", "root"] ⟨some (FsTree.file "f"), none⟩ = 1
      ∧ mainExit ["batches.py", "root"] ⟨some (FsTree.dir "r" cexForest), some "boom"⟩ = 1
      ∧ mainExit ["batches.py", "root"] ⟨some (FsTree.dir "r" cexForest), none⟩ = 0
      ∧ mainExit ["batches.py", "root"] ⟨some (FsTree.dir "r" FsForest.nil), none⟩ = 0) :=
  ⟨⟨by decide, claim_C9.1 ["batches.py"] _ (by decide)⟩,
    by decide, claim_C9.2.1 ["batches.py", "root"] none rfl,
    claim_C9.2.2.1 ["batches.py", "root"] "f" none rfl,
    claim_C9.2.2.2.1 ["batches.py", "root"] "r" cexForest "boom" rfl,
    claim_C9.2.2.2.2.1 ["batches.py", "root"] "r" cexForest rfl,
    (claim_C9.2.2.2.2.2 ["batches.py", "root"] "r" rfl).2⟩

theorem destsOf_append (p : SrcPath) (a b : List GroupSpec) :
    destsOf p (a ++ b) = destsOf p a ++ destsOf p b := by
  simp [destsOf, nonEmptyGroups, List.filter_append]

/-- Claim C2: a fault-free conversion of a file with at least one group
returns success with a created-files list holding exactly one
destination path per non-empty group, in order; starting from an empty
filesystem it leaves exactly that many files, each holding its group's
fully-written contents; empty groups are skipped without causing
failure.  The destination paths are assumed pairwise distinct, which
holds for every real container because group names are unique within a
TDMS file. -/
theorem claim_C2 (p : SrcPath) (run : TdmsRun)
    (henum : run.enumFault = none) (hne : run.groups ≠ [])
    (hok : ∀ g ∈ run.groups, g.fault = Fault.ok)
    (hnd : (destsOf p run.groups).Nodup) :
    (convert_tdms_file p run []).1 = (true, "", destsOf p run.groups)
    ∧ (destsOf p run.groups).length = (nonEmptyGroups run.groups).length
    ∧ (convert_tdms_file p run []).2.length = (nonEmptyGroups run.groups).length
    ∧ ∀ g ∈ nonEmptyGroups run.groups,
        fsGet (convert_tdms_file p run []).2 (destPath p g.name)
          = some (fileLines g.table) := by
  cases run with
  | mk ef gs =>
  have h1 : ef = none := henum
  subst h1
  have hne2 : gs.isEmpty = false := isEmpty_false_of_ne_nil hne
  have hrun : convert_tdms_file p ⟨none, gs⟩ []
      = ((true, "", destsOf p gs), cleanFS p gs []) := by
    have hconv : convert_tdms_file p ⟨none, gs⟩ []
        = if gs.isEmpty then ((false, "No groups found in TDMS file", []), [])
          else runGroups p gs [] [] := rfl
    rw [hconv, hne2]
    simp only [Bool.false_eq_true, if_false]
    rw [runGroups_clean p gs [] [] hok]
    simp
  have hfs : (convert_tdms_file p ⟨none, gs⟩ []).2
      = ((nonEmptyGroups gs).map
          (fun g => (destPath p g.name, fileLines g.table))).reverse ++ [] := by
    rw [hrun]
    exact cleanFS_from_disjoint p gs [] hnd (by intro e he; cases he)
  refine ⟨by rw [hrun], by simp [destsOf], ?_, ?_⟩
  · rw [hfs]
    simp
  · intro g hg
    rw [hfs]
    apply fsGet_reverse_nodup
    · have hmm : (((nonEmptyGroups gs).map
          (fun g => (destPath p g.name, fileLines g.table))).map Prod.fst)
            = destsOf p gs := by
        rw [List.map_map]
        rfl
      rw [hmm]
      exact hnd
    · exact List.mem_map_of_mem _ hg

/-- Claim C2, witness at a concrete file with one non-empty and one
empty group. -/
theorem claim_C2_witness :
    (runClean.enumFault = none ∧ runClean.groups ≠ []
      ∧ (∀ g ∈ runClean.groups, g.fault = Fault.ok)
      ∧ (destsOf pX runClean.groups).Nodup)
    ∧ ((convert_tdms_file pX runClean []).1 = (true, "", destsOf pX runClean.groups)
      ∧ (destsOf pX runClean.groups).length = (nonEmptyGroups runClean.groups).length
      ∧ (convert_tdms_file pX runClean []).2.length
          = (nonEmptyGroups runClean.groups).length
      ∧ ∀ g ∈ nonEmptyGroups runClean.groups,
          fsGet (convert_tdms_file pX runClean []).2 (destPath pX g.name)
            = some (fileLines g.table)) :=
  ⟨⟨rfl, by decide, by decide, by decide⟩,
    claim_C2 pX runClean rfl (by decide) (by decide) (by decide)⟩

/-- Claim C3: an exception during enumeration, materialization or
writing aborts the file at once: the result is failure carrying the
exception's message and exactly the destination paths of the groups
fully written before the failure; those files stay on disk with their
full contents (not rolled back), the groups after the failing one are
never processed (the run equals the run without them), and an
enumeration fault yields failure with an empty created list and an
unchanged filesystem.  Destination paths are assumed pairwise distinct,
as group names are unique within a TDMS file. -/
theorem claim_C3 (p : SrcPath) (pre : List GroupSpec) (bad : GroupSpec)
    (post : List GroupSpec)
    (hpre : ∀ g ∈ pre, g.fault = Fault.ok)
    (hbad : raisesDuring bad)
    (hnd : (destsOf p (pre ++ [bad])).Nodup) :
    (convert_tdms_file p ⟨none, pre ++ bad :: post⟩ []).1
      = (false, errWrap p (faultMsg bad.fault), destsOf p pre)
    ∧ (∀ g ∈ nonEmptyGroups pre,
        fsGet (convert_tdms_file p ⟨none, pre ++ bad :: post⟩ []).2
            (destPath p g.name)
          = some (fileLines g.table))
    ∧ convert_tdms_file p ⟨none, pre ++ bad :: post⟩ []
        = convert_tdms_file p ⟨none, pre ++ [bad]⟩ []
    ∧ (∀ (m : String) (gs : List GroupSpec) (fs : FS),
        convert_tdms_file p ⟨some m, gs⟩ fs = ((false, errWrap p m, []), fs)) := by
  rw [destsOf_append] at hnd
  have hndpre : (destsOf p pre).Nodup := hnd.of_append_left
  have hdisj : ∀ d ∈ destsOf p pre, d ∉ destsOf p [bad] := by
    have hsp := List.nodup_append.mp hnd
    intro d hd
    exact hsp.2.2 hd
  have hbadstep : ∀ (rest : List GroupSpec) (fs : FS) (created : List String),
      runGroups p (bad :: rest) fs created
        = ((false, errWrap p (faultMsg bad.fault), created), badFS p bad fs) := by
    intro rest fs created
    rcases hbad with ⟨m, hm⟩ | ⟨s, m, hw, hs, hrow⟩
    · simp [runGroups, hm, badFS, faultMsg]
    · have he : bad.table.rows.isEmpty = false := isEmpty_false_of_ne_nil hrow
      simp [runGroups, hw, he, hs, badFS, faultMsg]
  have hmain : ∀ (rest : List GroupSpec),
      convert_tdms_file p ⟨none, pre ++ bad :: rest⟩ []
        = ((false, errWrap p (faultMsg bad.fault), destsOf p pre),
           badFS p bad (cleanFS p pre [])) := by
    intro rest
    have hne : (pre ++ bad :: rest).isEmpty = false := by
      cases pre <;> rfl
    have hconv : convert_tdms_file p ⟨none, pre ++ bad :: rest⟩ []
        = if (pre ++ bad :: rest).isEmpty then
            ((false, "No groups found in TDMS file", []), [])
          else runGroups p (pre ++ bad :: rest) [] [] := rfl
    rw [hconv, hne]
    simp only [Bool.false_eq_true, if_false]
    rw [runGroups_append_clean p pre (bad :: rest) [] [] hpre, List.nil_append]
    exact hbadstep rest _ _
  have hclean : cleanFS p pre []
      = ((nonEmptyGroups pre).map
          (fun g => (destPath p g.name, fileLines g.table))).reverse ++ [] :=
    cleanFS_from_disjoint p pre [] hndpre (by intro e he; cases he)
  refine ⟨by rw [hmain post], ?_, by rw [hmain post, hmain []], fun m gs fs => rfl⟩
  intro g hg
  rw [hmain post]
  have hget : fsGet (cleanFS p pre []) (destPath p g.name)
      = some (fileLines g.table) := by
    rw [hclean]
    apply fsGet_reverse_nodup
    · have hmm : (((nonEmptyGroups pre).map
          (fun g => (destPath p g.name, fileLines g.table))).map Prod.fst)
            = destsOf p pre := by
        rw [List.map_map]
        rfl
      rw [hmm]
      exact hndpre
    · exact List.mem_map_of_mem _ hg
  rcases hbad with ⟨m, hm⟩ | ⟨s, m, hw, hs, hrow⟩
  · simpa [badFS, hm] using hget
  · simp only [badFS, hw]
    by_cases hz : s = 0
    · simpa [hz] using hget
    · rw [if_neg hz]
      rw [fsGet_set_ne]
      · exact hget
      · have hgd : destPath p g.name ∈ destsOf p pre := List.mem_map_of_mem _ hg
        have hbd : destPath p bad.name ∈ destsOf p [bad] := by
          have hne2 : bad.table.rows.isEmpty = false := isEmpty_false_of_ne_nil hrow
          simp [destsOf, nonEmptyGroups, List.filter_cons, hne2]
        intro hh
        exact hdisj _ hgd (hh ▸ hbd)

/-- Claim C3, witness: one fully written group, then a group whose
materialization raises, then a group that is never reached. -/
theorem claim_C3_witness :
    ((∀ g ∈ preW, g.fault = Fault.ok) ∧ raisesDuring badW
      ∧ (destsOf pX (preW ++ [badW])).Nodup)
    ∧ ((convert_tdms_file pX ⟨none, preW ++ badW :: postW⟩ []).1
        = (false, errWrap pX (faultMsg badW.fault), destsOf pX preW)
      ∧ (∀ g ∈ nonEmptyGroups preW,
          fsGet (convert_tdms_file pX ⟨none, preW ++ badW :: postW⟩ []).2
              (destPath pX g.name)
            = some (fileLines g.table))
      ∧ convert_tdms_file pX ⟨none, preW ++ badW :: postW⟩ []
          = convert_tdms_file pX ⟨none, preW ++ [badW]⟩ []
      ∧ (∀ (m : String) (gs : List GroupSpec) (fs : FS),
          convert_tdms_file pX ⟨some m, gs⟩ fs = ((false, errWrap pX m, []), fs))) :=
  ⟨⟨by decide, Or.inl ⟨"corrupt segment", rfl⟩, by decide⟩,
    claim_C3 pX preW badW postW (by decide) (Or.inl ⟨"corrupt segment", rfl⟩)
      (by decide)⟩

/-- Claim C4 (amended): with three groups where group 2's
materialization raises before any write for it, group 1's output file
is fully written, valid and the only entry of the created-files list,
and no file exists at group 2's destination path; the counterexample
shows that an exception raised DURING the chunked write of group 2 can
instead leave a partial group-2 file on disk. -/
theorem claim_C4 (p : SrcPath) (g1 g2 g3 : GroupSpec) (m : String)
    (h1 : g1.fault = Fault.ok) (h1r : g1.table.rows ≠ [])
    (h2 : g2.fault = Fault.materializeError m)
    (h12 : destPath p g1.name ≠ destPath p g2.name) :
    (convert_tdms_file p ⟨none, [g1, g2, g3]⟩ []).1
      = (false, errWrap p m, [destPath p g1.name])
    ∧ fsGet (convert_tdms_file p ⟨none, [g1, g2, g3]⟩ []).2 (destPath p g1.name)
        = some (fileLines g1.table)
    ∧ fsGet (convert_tdms_file p ⟨none, [g1, g2, g3]⟩ []).2 (destPath p g2.name)
        = none := by
  have he1 : g1.table.rows.isEmpty = false := isEmpty_false_of_ne_nil h1r
  have hrun : convert_tdms_file p ⟨none, [g1, g2, g3]⟩ []
      = ((false, errWrap p m, [destPath p g1.name]),
         fsSet [] (destPath p g1.name) (fileLines g1.table)) := by
    have hconv : convert_tdms_file p ⟨none, [g1, g2, g3]⟩ []
        = runGroups p [g1, g2, g3] [] [] := rfl
    rw [hconv]
    simp [runGroups, h1, he1, h2]
  refine ⟨by rw [hrun], ?_, ?_⟩
  · rw [hrun]
    exact fsGet_set_eq [] _ _
  · rw [hrun]
    rw [fsGet_set_ne [] _ _ _ (Ne.symm h12)]
    rfl

set_option maxRecDepth 16384 in
/-- Claim C4, counterexample to the claim as stated: when group 2's
write of segment 1 raises, the output file for group 2 exists on disk
with only the header and the first data row — a partial file — while
the full file would hold two data rows. -/
theorem claim_C4_cex :
    (convert_tdms_file pX runC4 []).1
      = (false, "Error converting s.tdms: disk full", ["d/s_G1.csv"])
    ∧ fsGet (convert_tdms_file pX runC4 []).2 "d/s_G2.csv" = some ["hB", "b1"]
    ∧ fileLines tB = ["hB", "b1", "b2"]
    ∧ (["hB", "b1"] : List String) ≠ ["hB", "b1", "b2"] := by
  refine ⟨rfl, rfl, rfl, by decide⟩

/-- Claim C4, witness: the amended statement at concrete groups. -/
theorem claim_C4_witness :
    ((⟨"G1", tA, Fault.ok⟩ : GroupSpec).fault = Fault.ok
      ∧ tA.rows ≠ []
      ∧ badW.fault = Fault.materializeError "corrupt segment"
      ∧ destPath pX "G1" ≠ destPath pX "G2")
    ∧ ((convert_tdms_file pX ⟨none, [⟨"G1", tA, Fault.ok⟩, badW, ⟨"G3", tC, Fault.ok⟩]⟩ []).1
        = (false, errWrap pX "corrupt segment", [destPath pX "G1"])
      ∧ fsGet (convert_tdms_file pX
            ⟨none, [⟨"G1", tA, Fault.ok⟩, badW, ⟨"G3", tC, Fault.ok⟩]⟩ []).2
            (destPath pX "G1")
          = some (fileLines tA)
      ∧ fsGet (convert_tdms_file pX
            ⟨none, [⟨"G1", tA, Fault.ok⟩, badW, ⟨"G3", tC, Fault.ok⟩]⟩ []).2
            (destPath pX "G2")
          = none) :=
  ⟨⟨rfl, by decide, rfl, by decide⟩,
    claim_C4 pX ⟨"G1", tA, Fault.ok⟩ badW ⟨"G3", tC, Fault.ok⟩ "corrupt segment"
      rfl (by decide) rfl (by decide)⟩

end Tdms
